import Mathlib

/-!
Shallow embedding of `src/main.cpp` of pi-pico-mpu6050-light: a dual-core
sketch that reads X-axis tilt from an MPU-6050 (or simulates it), drives a
damped bouncing-particle animation on a 30-LED strip, and mirrors it as an
ASCII bar on the serial console.

Modelling choices:
* C++ `float` arithmetic is embedded as exact rational arithmetic (`ℚ`);
  decimal literals (`0.2`, `0.98`, ...) denote the exact rationals.
* The libc transcendentals `sin` and `exp` are external to the repository,
  so they are passed as abstract function parameters `sinf expf : ℚ → ℚ`.
* Machine integers are `ℕ`/`ℤ` with explicit `% 2^w` at the one point where
  a width matters (the `int16_t` reinterpretation of the sensor sample).
* The I2C bus is external; one transaction is a record of the
  `Wire.endTransmission` return code and the bytes `Wire.requestFrom`
  delivered.
-/

namespace MPU6050Light

/-- `#define NUM_LEDS 30`. -/
def NUM_LEDS : ℕ := 30

/-- `const float BOUNCE_DAMPING = 0.85;`. -/
def BOUNCE_DAMPING : ℚ := 0.85

/-- `const float MAX_VELOCITY = 1.0;`. -/
def MAX_VELOCITY : ℚ := 1.0

/-- `const float GLOW_DECAY = 0.5;`. -/
def GLOW_DECAY : ℚ := 0.5

/-- A FastLED `CRGB` color triple; channels are bytes (0..255). -/
structure CRGB where
  r : ℕ
  g : ℕ
  b : ℕ
deriving Repr, DecidableEq

/-- `const CRGB WATER_COLOR = CRGB::Blue;` (FastLED `CRGB::Blue` = 0x0000FF). -/
def WATER_COLOR : CRGB := ⟨0, 0, 255⟩

/-- Arduino macro `constrain(amt, low, high)`:
`((amt)<(low)?(low):((amt)>(high)?(high):(amt)))`. -/
def constrain (amt low high : ℚ) : ℚ :=
  if amt < low then low else if amt > high then high else amt

/-- The animation loop's particle state: `water_pos` and `water_vel`. -/
structure ParticleState where
  water_pos : ℚ
  water_vel : ℚ
deriving Repr, DecidableEq

/-- Section `// 1. Physics Update` of `update_led_strip` (before the edge
check): forcing, drag, clamp, Euler step. -/
def physicsIntegrate (s : ParticleState) (g_tilt_x : ℚ) : ParticleState :=
  let tilt_accel := g_tilt_x * 0.2
  let vel₁ := s.water_vel + tilt_accel
  let vel₂ := vel₁ * 0.98
  let vel₃ := constrain vel₂ (-MAX_VELOCITY) MAX_VELOCITY
  let pos₁ := s.water_pos + vel₃
  ⟨pos₁, vel₃⟩

/-- Section `// 2. Edge Reflection/Bounce Logic` of `update_led_strip`. -/
def boundaryReflect (s : ParticleState) : ParticleState :=
  if s.water_pos < 0 then
    ⟨0, -s.water_vel * BOUNCE_DAMPING⟩
  else if s.water_pos ≥ (NUM_LEDS : ℚ) then
    ⟨(NUM_LEDS : ℚ) - 0.001, -s.water_vel * BOUNCE_DAMPING⟩
  else s

/-- Reinterpretation of a machine word as `int16_t` (two's complement):
used for `int16_t rawX = Wire.read() << 8 | Wire.read();`. -/
def toInt16 (n : ℕ) : ℤ :=
  if n % 2 ^ 16 < 2 ^ 15 then (n % 2 ^ 16 : ℤ) else (n % 2 ^ 16 : ℤ) - 2 ^ 16

/-- Outcome of the I2C transaction performed by one `read_mpu6050` call: the
return code of `Wire.endTransmission(true)` (`0` = success) and the bytes
delivered by `Wire.requestFrom` (`Wire.requestFrom` returns their count). -/
structure I2CRead where
  endTransmissionResult : ℕ
  bytes : List ℕ
deriving Repr, DecidableEq

/-- `bool read_mpu6050(float &accX)`: returns `none` on I2C failure (nonzero
`endTransmission` code or short read), else the X acceleration in G. -/
def read_mpu6050 (bus : I2CRead) : Option ℚ :=
  if bus.endTransmissionResult ≠ 0 then
    none
  else if bus.bytes.length ≠ 6 then
    none
  else
    let rawX : ℤ := toInt16 ((bus.bytes.getD 0 0) <<< 8 ||| bus.bytes.getD 1 0)
    some ((rawX : ℚ) / 16384)

/-- The shared variables written by core 0 and read by core 1:
`volatile float g_tilt_x` and `volatile bool g_sensor_connected`. -/
structure SharedState where
  g_tilt_x : ℚ
  g_sensor_connected : Bool
deriving Repr, DecidableEq

/-- Initial values of the shared globals:
`g_tilt_x = 0.0`, `g_sensor_connected = false`. -/
def initialShared : SharedState := ⟨0.0, false⟩

/-- Core 0 `setup()`: probe the MPU-6050 once (`probeResult` is the return
code of `Wire.endTransmission(true)` after addressing the device) and set
`g_sensor_connected` accordingly. The wake-up write is a bus side effect
with no effect on the modelled state. -/
def setup (probeResult : ℕ) (s : SharedState) : SharedState :=
  if probeResult = 0 then
    { s with g_sensor_connected := true }
  else
    { s with g_sensor_connected := false }

/-- The hardware-reading branch of core 0's `loop()`: publish the converted
sample on success, keep the previous `g_tilt_x` on failure. -/
def hardwareTick (bus : I2CRead) (s : SharedState) : SharedState :=
  match read_mpu6050 bus with
  | some new_accel_x => { s with g_tilt_x := new_accel_x }
  | none => s

/-- One iteration of core 0's `loop()`. `sinf` abstracts the libc `sin`
used by the simulated fallback; `millis` is the clock reading this tick. -/
def loop (sinf : ℚ → ℚ) (bus : I2CRead) (millis : ℕ) (s : SharedState) :
    SharedState :=
  if s.g_sensor_connected then
    match read_mpu6050 bus with
    | some new_accel_x => { s with g_tilt_x := new_accel_x }
    | none => s
  else
    let time_sec : ℚ := (millis : ℚ) / 1000
    { s with g_tilt_x := sinf (time_sec * 0.5) * 0.8 }

/-- A whole run of core 0's `loop()`, one `(bus, millis)` input per tick. -/
def core0Run (sinf : ℚ → ℚ) (s : SharedState) :
    List (I2CRead × ℕ) → SharedState
  | [] => s
  | (bus, ms) :: rest => core0Run sinf (loop sinf bus ms s) rest

/-- The status tag printed each frame by `loop1`:
`Serial.print(g_sensor_connected ? "[H/W]" : "[SIM]")`. -/
def statusTag (g_sensor_connected : Bool) : String :=
  if g_sensor_connected then "[H/W]" else "[SIM]"

/-- FastLED's `CRGB::nscale8(fract8 scaledown)` (library code, external to
this repository): per-channel fixed-point scaling `(c * (scaledown+1)) >> 8`
(`FASTLED_SCALE8_FIXED` semantics). -/
def CRGB.nscale8 (c : CRGB) (scaledown : ℕ) : CRGB :=
  ⟨c.r * (scaledown + 1) >>> 8, c.g * (scaledown + 1) >>> 8,
    c.b * (scaledown + 1) >>> 8⟩

/-- C++ implicit conversion `float → uint8_t`: truncation toward zero, then
the byte. (Out-of-range values are undefined behavior in C++ and unreachable
here with the real `sin`/`exp`; they are mapped via `Int.toNat` and `% 2^8`.) -/
def cppToUInt8 (q : ℚ) : ℕ := (Int.toNat ⌊q⌋) % 2 ^ 8

/-- Core 1's whole-core state: the particle, the shimmer phase and the
`leds[NUM_LEDS]` frame buffer. -/
structure Core1State where
  water_pos : ℚ
  water_vel : ℚ
  flow_time_offset : ℚ
  leds : List CRGB
deriving Repr, DecidableEq

/-- Section `// 3. Clear strip and apply new glow` of `update_led_strip`:
the per-pixel glow/shimmer loop. (The preceding `FastLED.clear()` is
subsumed: every index of the frame is overwritten.) `sinf`/`expf` abstract
the libc `sin`/`exp`. -/
def renderGlow (sinf expf : ℚ → ℚ) (water_pos flow_time_offset : ℚ) :
    List CRGB :=
  (List.range NUM_LEDS).map fun (i : ℕ) =>
    let dist := |(i : ℚ) - water_pos|
    let intensity := expf (-dist * GLOW_DECAY)
    let shimmer := sinf ((i : ℚ) * 0.3 + flow_time_offset) * 0.2 + 0.8
    let intensity₂ := intensity * shimmer
    WATER_COLOR.nscale8 (cppToUInt8 (intensity₂ * 255))

/-- `update_led_strip()`: physics update, edge reflection, shimmer-phase
advance, glow rasterization. -/
def update_led_strip (sinf expf : ℚ → ℚ) (g_tilt_x : ℚ) (s : Core1State) :
    Core1State :=
  let s₁ := physicsIntegrate ⟨s.water_pos, s.water_vel⟩ g_tilt_x
  let s₂ := boundaryReflect s₁
  let flow_time_offset := s.flow_time_offset + 0.05
  let leds := renderGlow sinf expf s₂.water_pos flow_time_offset
  ⟨s₂.water_pos, s₂.water_vel, flow_time_offset, leds⟩

/-- Iterated animation ticks with the tilt input held at `0`. -/
def zeroTiltRun (sinf expf : ℚ → ℚ) (s : Core1State) : ℕ → Core1State
  | 0 => s
  | n + 1 => update_led_strip sinf expf 0 (zeroTiltRun sinf expf s n)

/-- `uint8_t brightness = max(max(leds[i].r, leds[i].g), leds[i].b);`. -/
def ledBrightness (c : CRGB) : ℕ := max (max c.r c.g) c.b

/-- The threshold table of `create_ascii_visualization`'s loop body. -/
def asciiGlyph (brightness : ℕ) : Char :=
  if brightness > 180 then '~'
  else if brightness > 50 then '='
  else if brightness > 10 then '_'
  else ' '

/-- `create_ascii_visualization(char* buffer, int buffer_size)`: the buffer
is modelled as the list of characters it holds; each `buffer[i] = c` store
is a `List.set`. Reads `leds` (passed explicitly here). -/
def create_ascii_visualization (leds : List CRGB) (buffer : List Char)
    (buffer_size : ℤ) : List Char :=
  if buffer_size < (NUM_LEDS : ℤ) + 1 then buffer
  else
    ((List.range NUM_LEDS).foldl
      (fun buf i => buf.set i (asciiGlyph (ledBrightness (leds.getD i ⟨0, 0, 0⟩))))
      buffer).set NUM_LEDS (Char.ofNat 0)

/-- The spec's `clamp(x, lo, hi)` written as the spec states it (nearest
bound when outside `[lo, hi]`, identity inside). Used only to compare the
source's `constrain` against the spec's formula. -/
def specClamp (x lo hi : ℚ) : ℚ := max lo (min hi x)

theorem constrain_eq_specClamp (x : ℚ) :
    constrain x (-MAX_VELOCITY) MAX_VELOCITY = specClamp x (-1) 1 := by
  have h1 : (1.0 : ℚ) = 1 := by norm_num
  unfold constrain specClamp MAX_VELOCITY
  rw [h1]
  split_ifs with ha hb
  · rw [min_eq_right (by linarith), max_eq_left (by linarith)]
  · rw [min_eq_left (by linarith), max_eq_right (by norm_num)]
  · rw [min_eq_right (by linarith), max_eq_right (by linarith)]

/-! ## Helper lemmas -/

lemma constrain_mem (x lo hi : ℚ) (h : lo ≤ hi) :
    lo ≤ constrain x lo hi ∧ constrain x lo hi ≤ hi := by
  unfold constrain
  split_ifs with h1 h2
  · exact ⟨le_refl lo, h⟩
  · exact ⟨h, le_refl hi⟩
  · push_neg at h1 h2
    exact ⟨h1, h2⟩

lemma abs_constrain_le (x lo hi : ℚ) (hlo : lo ≤ 0) (hhi : 0 ≤ hi) :
    |constrain x lo hi| ≤ |x| := by
  unfold constrain
  split_ifs with h1 h2
  · rw [abs_of_nonpos hlo, abs_of_neg (lt_of_lt_of_le h1 hlo)]
    linarith
  · rw [abs_of_nonneg hhi, abs_of_pos (lt_of_le_of_lt hhi h2)]
    linarith
  · exact le_refl |x|

lemma constrain_ne_zero (x lo hi : ℚ) (hx : x ≠ 0) (hlo : lo < 0) (hhi : 0 < hi) :
    constrain x lo hi ≠ 0 := by
  unfold constrain
  split_ifs
  · exact ne_of_lt hlo
  · exact ne_of_gt hhi
  · exact hx

lemma boundaryReflect_vel (t : ParticleState) :
    (boundaryReflect t).water_vel = t.water_vel ∨
    (boundaryReflect t).water_vel = -t.water_vel * BOUNCE_DAMPING := by
  unfold boundaryReflect
  split_ifs
  · exact Or.inr rfl
  · exact Or.inr rfl
  · exact Or.inl rfl

lemma loop_g_sensor_connected (sinf : ℚ → ℚ) (bus : I2CRead) (ms : ℕ)
    (s : SharedState) :
    (loop sinf bus ms s).g_sensor_connected = s.g_sensor_connected := by
  unfold loop
  split_ifs with h
  · cases read_mpu6050 bus <;> rfl
  · rfl

lemma core0Run_g_sensor_connected (sinf : ℚ → ℚ) (s : SharedState)
    (inputs : List (I2CRead × ℕ)) :
    (core0Run sinf s inputs).g_sensor_connected = s.g_sensor_connected := by
  induction inputs generalizing s with
  | nil => rfl
  | cons p rest ih =>
    cases p with
    | mk bus ms =>
      simp only [core0Run]
      rw [ih, loop_g_sensor_connected]

lemma getD_map_range {α : Type} (f : ℕ → α) (n i : ℕ) (d : α) (h : i < n) :
    ((List.range n).map f).getD i d = f i := by
  rw [List.getD_eq_getElem?_getD, List.getElem?_map, List.getElem?_range h]
  rfl

/-! ## Claim theorems -/

/-- C1: each animation tick updates the particle in exactly the order
forcing, drag, clamp, Euler step: the state entering the boundary check is
`(pos + v', v')` with `v' = clamp(0.98 * (vel + 0.2 * tilt), -1, 1)`, and
`update_led_strip`'s particle state is the boundary handling applied to
exactly that state. -/
theorem C1_integration_order (sinf expf : ℚ → ℚ) (s : Core1State) (tilt : ℚ) :
    physicsIntegrate ⟨s.water_pos, s.water_vel⟩ tilt =
      ⟨s.water_pos + specClamp (0.98 * (s.water_vel + 0.2 * tilt)) (-1) 1,
        specClamp (0.98 * (s.water_vel + 0.2 * tilt)) (-1) 1⟩ ∧
    (update_led_strip sinf expf tilt s).water_pos =
      (boundaryReflect (physicsIntegrate ⟨s.water_pos, s.water_vel⟩ tilt)).water_pos ∧
    (update_led_strip sinf expf tilt s).water_vel =
      (boundaryReflect (physicsIntegrate ⟨s.water_pos, s.water_vel⟩ tilt)).water_vel := by
  refine ⟨?_, rfl, rfl⟩
  unfold physicsIntegrate
  have h : (s.water_vel + tilt * 0.2) * 0.98 = 0.98 * (s.water_vel + 0.2 * tilt) := by
    ring
  simp only
  rw [h, constrain_eq_specClamp]

/-- C2: from any state with `water_pos ∈ [0, NUM_LEDS)` and
`|water_vel| ≤ 1`, one animation tick with any tilt in `[-1, 1]` leaves
`water_pos ∈ [0, NUM_LEDS)` and `|water_vel| ≤ MAX_VELOCITY`. -/
theorem C2_state_invariant (sinf expf : ℚ → ℚ) (s : Core1State) (tilt : ℚ)
    (hp0 : 0 ≤ s.water_pos) (hp1 : s.water_pos < (NUM_LEDS : ℚ))
    (hv : |s.water_vel| ≤ 1) (ht : |tilt| ≤ 1) :
    (0 ≤ (update_led_strip sinf expf tilt s).water_pos ∧
      (update_led_strip sinf expf tilt s).water_pos < (NUM_LEDS : ℚ)) ∧
    |(update_led_strip sinf expf tilt s).water_vel| ≤ MAX_VELOCITY := by
  have hpos : (update_led_strip sinf expf tilt s).water_pos =
      (boundaryReflect (physicsIntegrate ⟨s.water_pos, s.water_vel⟩ tilt)).water_pos := rfl
  have hvel : (update_led_strip sinf expf tilt s).water_vel =
      (boundaryReflect (physicsIntegrate ⟨s.water_pos, s.water_vel⟩ tilt)).water_vel := rfl
  rw [hpos, hvel]
  set t := physicsIntegrate ⟨s.water_pos, s.water_vel⟩ tilt with ht'
  have htv : |t.water_vel| ≤ 1 := by
    have := constrain_mem ((s.water_vel + tilt * 0.2) * 0.98)
      (-MAX_VELOCITY) MAX_VELOCITY (by norm_num [MAX_VELOCITY])
    have h1 : t.water_vel =
        constrain ((s.water_vel + tilt * 0.2) * 0.98) (-MAX_VELOCITY) MAX_VELOCITY := rfl
    rw [h1]
    rw [abs_le]
    constructor
    · have := this.1
      simp only [MAX_VELOCITY] at this ⊢
      linarith
    · have := this.2
      simp only [MAX_VELOCITY] at this ⊢
      linarith
  unfold boundaryReflect
  split_ifs with h1 h2
  · refine ⟨⟨le_refl 0, by norm_num [NUM_LEDS]⟩, ?_⟩
    simp only [abs_mul, abs_neg]
    rw [abs_of_nonneg (show (0:ℚ) ≤ BOUNCE_DAMPING by norm_num [BOUNCE_DAMPING])]
    simp only [BOUNCE_DAMPING, MAX_VELOCITY]
    nlinarith [abs_nonneg t.water_vel]
  · refine ⟨⟨by norm_num [NUM_LEDS], by norm_num [NUM_LEDS]⟩, ?_⟩
    simp only [abs_mul, abs_neg]
    rw [abs_of_nonneg (show (0:ℚ) ≤ BOUNCE_DAMPING by norm_num [BOUNCE_DAMPING])]
    simp only [BOUNCE_DAMPING, MAX_VELOCITY]
    nlinarith [abs_nonneg t.water_vel]
  · push_neg at h1 h2
    refine ⟨⟨h1, h2⟩, ?_⟩
    simp only [MAX_VELOCITY]
    have h10 : (1.0 : ℚ) = 1 := by norm_num
    rw [h10]
    exact htv

/-- C2 witness: the hypotheses hold and the invariant is preserved at the
concrete state `(pos, vel) = (15, 0)` with tilt `1`. -/
theorem C2_state_invariant_witness :
    ((0 : ℚ) ≤ 15 ∧ (15 : ℚ) < (NUM_LEDS : ℚ) ∧ |(0 : ℚ)| ≤ 1 ∧ |(1 : ℚ)| ≤ 1) ∧
    ((0 ≤ (update_led_strip (fun _ => 0) (fun _ => 0) 1 ⟨15, 0, 0, []⟩).water_pos ∧
      (update_led_strip (fun _ => 0) (fun _ => 0) 1 ⟨15, 0, 0, []⟩).water_pos
        < (NUM_LEDS : ℚ)) ∧
    |(update_led_strip (fun _ => 0) (fun _ => 0) 1 ⟨15, 0, 0, []⟩).water_vel|
      ≤ MAX_VELOCITY) :=
  ⟨⟨by norm_num, by norm_num [NUM_LEDS], by norm_num, by norm_num⟩,
    C2_state_invariant (fun _ => 0) (fun _ => 0) ⟨15, 0, 0, []⟩ 1
      (by norm_num) (by norm_num [NUM_LEDS]) (by norm_num) (by norm_num)⟩

/-- C3: if the integration step drives `water_pos` to `≥ NUM_LEDS`
(including exactly `NUM_LEDS`), the tick ends with
`water_pos = NUM_LEDS - 0.001` and `water_vel = -v * BOUNCE_DAMPING` where
`v` is the clamped pre-boundary velocity; symmetrically, if it drives
`water_pos` below `0`, the tick ends with `water_pos = 0` and
`water_vel = -v * BOUNCE_DAMPING`. -/
theorem C3_boundary_reflection (sinf expf : ℚ → ℚ) (s : Core1State) (tilt : ℚ) :
    ((physicsIntegrate ⟨s.water_pos, s.water_vel⟩ tilt).water_pos ≥ (NUM_LEDS : ℚ) →
      (update_led_strip sinf expf tilt s).water_pos = (NUM_LEDS : ℚ) - 0.001 ∧
      (update_led_strip sinf expf tilt s).water_vel =
        -(physicsIntegrate ⟨s.water_pos, s.water_vel⟩ tilt).water_vel * BOUNCE_DAMPING) ∧
    ((physicsIntegrate ⟨s.water_pos, s.water_vel⟩ tilt).water_pos < 0 →
      (update_led_strip sinf expf tilt s).water_pos = 0 ∧
      (update_led_strip sinf expf tilt s).water_vel =
        -(physicsIntegrate ⟨s.water_pos, s.water_vel⟩ tilt).water_vel * BOUNCE_DAMPING) := by
  have hpos : (update_led_strip sinf expf tilt s).water_pos =
      (boundaryReflect (physicsIntegrate ⟨s.water_pos, s.water_vel⟩ tilt)).water_pos := rfl
  have hvel : (update_led_strip sinf expf tilt s).water_vel =
      (boundaryReflect (physicsIntegrate ⟨s.water_pos, s.water_vel⟩ tilt)).water_vel := rfl
  set t := physicsIntegrate ⟨s.water_pos, s.water_vel⟩ tilt with htdef
  constructor
  · intro h
    have hnot : ¬ t.water_pos < 0 := by
      have h0 : (0 : ℚ) ≤ (NUM_LEDS : ℚ) := by norm_num [NUM_LEDS]
      linarith
    have hb : boundaryReflect t =
        ⟨(NUM_LEDS : ℚ) - 0.001, -t.water_vel * BOUNCE_DAMPING⟩ := by
      unfold boundaryReflect
      rw [if_neg hnot, if_pos h]
    exact ⟨by rw [hpos, hb], by rw [hvel, hb]⟩
  · intro h
    have hb : boundaryReflect t = ⟨0, -t.water_vel * BOUNCE_DAMPING⟩ := by
      unfold boundaryReflect
      rw [if_pos h]
    exact ⟨by rw [hpos, hb], by rw [hvel, hb]⟩

/-- C3 witness: the upper-boundary case at `(pos, vel) = (29.5, 1)` and the
lower-boundary case at `(pos, vel) = (0.5, -1)`, both with tilt `0`. -/
theorem C3_boundary_reflection_witness :
    ((physicsIntegrate ⟨29.5, 1⟩ 0).water_pos ≥ (NUM_LEDS : ℚ) ∧
      (update_led_strip (fun _ => 0) (fun _ => 0) 0 ⟨29.5, 1, 0, []⟩).water_pos =
        (NUM_LEDS : ℚ) - 0.001 ∧
      (update_led_strip (fun _ => 0) (fun _ => 0) 0 ⟨29.5, 1, 0, []⟩).water_vel =
        -(physicsIntegrate ⟨29.5, 1⟩ 0).water_vel * BOUNCE_DAMPING) ∧
    ((physicsIntegrate ⟨0.5, -1⟩ 0).water_pos < 0 ∧
      (update_led_strip (fun _ => 0) (fun _ => 0) 0 ⟨0.5, -1, 0, []⟩).water_pos = 0 ∧
      (update_led_strip (fun _ => 0) (fun _ => 0) 0 ⟨0.5, -1, 0, []⟩).water_vel =
        -(physicsIntegrate ⟨0.5, -1⟩ 0).water_vel * BOUNCE_DAMPING) := by
  have h1 : (physicsIntegrate ⟨29.5, 1⟩ 0).water_pos ≥ (NUM_LEDS : ℚ) := by
    norm_num [physicsIntegrate, constrain, MAX_VELOCITY, NUM_LEDS]
  have h2 : (physicsIntegrate ⟨0.5, -1⟩ 0).water_pos < 0 := by
    norm_num [physicsIntegrate, constrain, MAX_VELOCITY]
  exact ⟨⟨h1, (C3_boundary_reflection (fun _ => 0) (fun _ => 0) ⟨29.5, 1, 0, []⟩ 0).1 h1⟩,
    ⟨h2, (C3_boundary_reflection (fun _ => 0) (fun _ => 0) ⟨0.5, -1, 0, []⟩ 0).2 h2⟩⟩

lemma vel_decay_step (sinf expf : ℚ → ℚ) (s : Core1State) (h : s.water_vel ≠ 0) :
    |(update_led_strip sinf expf 0 s).water_vel| < |s.water_vel| ∧
    (update_led_strip sinf expf 0 s).water_vel ≠ 0 := by
  have hvel : (update_led_strip sinf expf 0 s).water_vel =
      (boundaryReflect (physicsIntegrate ⟨s.water_pos, s.water_vel⟩ 0)).water_vel := rfl
  set t := physicsIntegrate ⟨s.water_pos, s.water_vel⟩ 0 with htdef
  have htv : t.water_vel =
      constrain ((s.water_vel + 0 * 0.2) * 0.98) (-MAX_VELOCITY) MAX_VELOCITY := rfl
  have hprod : (s.water_vel + 0 * 0.2) * 0.98 = s.water_vel * 0.98 := by ring
  have habs : |t.water_vel| < |s.water_vel| := by
    rw [htv, hprod]
    have hle : |constrain (s.water_vel * 0.98) (-MAX_VELOCITY) MAX_VELOCITY|
        ≤ |s.water_vel * 0.98| :=
      abs_constrain_le _ _ _ (by norm_num [MAX_VELOCITY]) (by norm_num [MAX_VELOCITY])
    rw [abs_mul, abs_of_nonneg (show (0:ℚ) ≤ 0.98 by norm_num)] at hle
    have hpos : 0 < |s.water_vel| := abs_pos.mpr h
    nlinarith
  have hne : t.water_vel ≠ 0 := by
    rw [htv]
    refine constrain_ne_zero _ _ _ ?_ (by norm_num [MAX_VELOCITY]) (by norm_num [MAX_VELOCITY])
    rw [hprod]
    exact mul_ne_zero h (by norm_num)
  rcases boundaryReflect_vel t with hcase | hcase
  · rw [hvel, hcase]
    exact ⟨habs, hne⟩
  · rw [hvel, hcase]
    constructor
    · rw [abs_mul, abs_neg,
        abs_of_nonneg (show (0:ℚ) ≤ BOUNCE_DAMPING by norm_num [BOUNCE_DAMPING])]
      simp only [BOUNCE_DAMPING]
      nlinarith [abs_nonneg t.water_vel]
    · exact mul_ne_zero (neg_ne_zero.mpr hne) (by norm_num [BOUNCE_DAMPING])

/-- C4: with the tilt input held at `0` and a non-zero initial velocity, the
velocity magnitude strictly decreases on every tick (per-tick `0.98` drag
and `0.85` reflection damping only shrink it; in this exact-arithmetic model
the decrease continues at every tick). -/
theorem C4_damping_decay (sinf expf : ℚ → ℚ) (s : Core1State) (n : ℕ)
    (h : s.water_vel ≠ 0) :
    |(zeroTiltRun sinf expf s (n + 1)).water_vel| <
      |(zeroTiltRun sinf expf s n).water_vel| := by
  have hne : ∀ m : ℕ, (zeroTiltRun sinf expf s m).water_vel ≠ 0 := by
    intro m
    induction m with
    | zero => exact h
    | succ k ih => exact (vel_decay_step sinf expf _ ih).2
  exact (vel_decay_step sinf expf _ (hne n)).1

/-- C4 witness: one tick from `(pos, vel) = (15, 1)` with tilt `0` strictly
shrinks the velocity magnitude. -/
theorem C4_damping_decay_witness :
    ((⟨15, 1, 0, []⟩ : Core1State).water_vel ≠ 0) ∧
    |(zeroTiltRun (fun _ => 0) (fun _ => 0) ⟨15, 1, 0, []⟩ (0 + 1)).water_vel| <
      |(zeroTiltRun (fun _ => 0) (fun _ => 0) ⟨15, 1, 0, []⟩ 0).water_vel| :=
  ⟨by norm_num,
    C4_damping_decay (fun _ => 0) (fun _ => 0) ⟨15, 1, 0, []⟩ 0 (by norm_num)⟩

/-- C5: with the connected flag true, a successful bus read publishes the
big-endian signed 16-bit sample divided by `16384`; a failed read (nonzero
transmission code or short read) leaves the shared state, in particular
`g_tilt_x`, unchanged. -/
theorem C5_sensor_read_publish (sinf : ℚ → ℚ) (tilt₀ : ℚ) (bus : I2CRead)
    (ms : ℕ) :
    (bus.endTransmissionResult = 0 → bus.bytes.length = 6 →
      (loop sinf bus ms ⟨tilt₀, true⟩).g_tilt_x =
        ((toInt16 ((bus.bytes.getD 0 0) <<< 8 ||| bus.bytes.getD 1 0) : ℚ) / 16384)) ∧
    (read_mpu6050 bus = none → loop sinf bus ms ⟨tilt₀, true⟩ = ⟨tilt₀, true⟩) := by
  constructor
  · intro h1 h2
    have hread : read_mpu6050 bus =
        some ((toInt16 ((bus.bytes.getD 0 0) <<< 8 ||| bus.bytes.getD 1 0) : ℚ) / 16384) := by
      unfold read_mpu6050
      rw [if_neg (by simp [h1]), if_neg (by simp [h2])]
    simp [loop, hread]
  · intro h
    simp [loop, h]

/-- C5 witness: a successful read of bytes `[1, 0, 0, 0, 0, 0]` publishes
`toInt16 256 / 16384`, and a failed transaction leaves the shared state
unchanged. -/
theorem C5_sensor_read_publish_witness :
    ((⟨0, [1, 0, 0, 0, 0, 0]⟩ : I2CRead).endTransmissionResult = 0 ∧
      (⟨0, [1, 0, 0, 0, 0, 0]⟩ : I2CRead).bytes.length = 6 ∧
      (loop (fun _ => 0) ⟨0, [1, 0, 0, 0, 0, 0]⟩ 0 ⟨0, true⟩).g_tilt_x =
        ((toInt16 (((⟨0, [1, 0, 0, 0, 0, 0]⟩ : I2CRead).bytes.getD 0 0) <<< 8 |||
            (⟨0, [1, 0, 0, 0, 0, 0]⟩ : I2CRead).bytes.getD 1 0) : ℚ) / 16384)) ∧
    (read_mpu6050 ⟨1, []⟩ = none ∧
      loop (fun _ => 0) ⟨1, []⟩ 0 ⟨0.5, true⟩ = ⟨0.5, true⟩) :=
  ⟨⟨rfl, rfl,
      (C5_sensor_read_publish (fun _ => 0) 0 ⟨0, [1, 0, 0, 0, 0, 0]⟩ 0).1 rfl rfl⟩,
    ⟨rfl, (C5_sensor_read_publish (fun _ => 0) 0.5 ⟨1, []⟩ 0).2 rfl⟩⟩

/-- C6: with the connected flag false, every tick publishes
`0.8 * sinf(0.5 * t)` with `t = millis / 1000` seconds, and along any run
started with the flag false the status tag stays `"[SIM]"`. -/
theorem C6_sim_fallback (sinf : ℚ → ℚ) (tilt₀ : ℚ) (bus : I2CRead) (ms : ℕ)
    (inputs : List (I2CRead × ℕ)) :
    (loop sinf bus ms ⟨tilt₀, false⟩).g_tilt_x =
      0.8 * sinf (0.5 * ((ms : ℚ) / 1000)) ∧
    statusTag (core0Run sinf ⟨tilt₀, false⟩ inputs).g_sensor_connected =
      "[SIM]" := by
  constructor
  · show sinf ((ms : ℚ) / 1000 * 0.5) * 0.8 = 0.8 * sinf (0.5 * ((ms : ℚ) / 1000))
    rw [mul_comm (sinf _) 0.8, mul_comm ((ms : ℚ) / 1000) 0.5]
  · rw [core0Run_g_sensor_connected]
    rfl

/-- C7: `g_sensor_connected` is decided once by `setup`'s probe and never
written afterwards: one `loop` tick preserves it, a whole run from the
`setup` state preserves it, and whenever it is true the tick is exactly the
hardware-reading branch (so a later read failure can never switch execution
to the simulated path). -/
theorem C7_connected_write_once (sinf : ℚ → ℚ) (bus : I2CRead) (ms : ℕ)
    (s : SharedState) (probe : ℕ) (inputs : List (I2CRead × ℕ)) :
    (loop sinf bus ms s).g_sensor_connected = s.g_sensor_connected ∧
    (core0Run sinf (setup probe initialShared) inputs).g_sensor_connected =
      (setup probe initialShared).g_sensor_connected ∧
    (s.g_sensor_connected = true → loop sinf bus ms s = hardwareTick bus s) := by
  refine ⟨loop_g_sensor_connected sinf bus ms s,
    core0Run_g_sensor_connected sinf _ inputs, ?_⟩
  intro h
  unfold loop hardwareTick
  rw [if_pos h]

/-- C7 witness: with the flag true (and, say, a failing bus transaction) the
tick is the hardware branch. -/
theorem C7_connected_write_once_witness :
    ((⟨0, true⟩ : SharedState).g_sensor_connected = true) ∧
    loop (fun _ => 0) ⟨1, []⟩ 0 ⟨0, true⟩ = hardwareTick ⟨1, []⟩ ⟨0, true⟩ :=
  ⟨rfl, (C7_connected_write_once (fun _ => 0) ⟨1, []⟩ 0 ⟨0, true⟩ 0 []).2.2 rfl⟩

/-- C8: each rendered pixel is the base color scaled by
`intensity * 255` with
`intensity = expf(-|i - position| * GLOW_DECAY) * shimmer` (exponential
falloff) and `shimmer = sinf(i * 0.3 + phase) * 0.2 + 0.8 ∈ [0.6, 1]`
(given the sine's range); the shimmer phase advances by exactly `0.05` once
per frame, and the frame buffer is a function of the post-physics position
and the advanced phase alone. -/
theorem C8_rasterizer (sinf expf : ℚ → ℚ) (tilt : ℚ) (s : Core1State) (i : ℕ)
    (hi : i < NUM_LEDS) (hsin : ∀ x : ℚ, -1 ≤ sinf x ∧ sinf x ≤ 1) :
    ((update_led_strip sinf expf tilt s).leds.getD i ⟨0, 0, 0⟩ =
      WATER_COLOR.nscale8 (cppToUInt8
        (expf (-|(i : ℚ) - (update_led_strip sinf expf tilt s).water_pos| *
            GLOW_DECAY) *
          (sinf ((i : ℚ) * 0.3 + (s.flow_time_offset + 0.05)) * 0.2 + 0.8) *
          255))) ∧
    (0.6 ≤ sinf ((i : ℚ) * 0.3 + (s.flow_time_offset + 0.05)) * 0.2 + 0.8 ∧
      sinf ((i : ℚ) * 0.3 + (s.flow_time_offset + 0.05)) * 0.2 + 0.8 ≤ 1) ∧
    (update_led_strip sinf expf tilt s).flow_time_offset =
      s.flow_time_offset + 0.05 ∧
    (update_led_strip sinf expf tilt s).leds =
      renderGlow sinf expf (update_led_strip sinf expf tilt s).water_pos
        (s.flow_time_offset + 0.05) := by
  refine ⟨?_, ⟨?_, ?_⟩, rfl, rfl⟩
  · have hled : (update_led_strip sinf expf tilt s).leds =
        renderGlow sinf expf (update_led_strip sinf expf tilt s).water_pos
          (s.flow_time_offset + 0.05) := rfl
    rw [hled]
    unfold renderGlow
    rw [getD_map_range _ _ _ _ hi]
  · have h := (hsin ((i : ℚ) * 0.3 + (s.flow_time_offset + 0.05))).1
    linarith
  · have h := (hsin ((i : ℚ) * 0.3 + (s.flow_time_offset + 0.05))).2
    linarith

/-- C8 witness: pixel `0` of a frame rendered from `(pos, vel) = (15, 0)`,
phase `0`, tilt `0`, with the sine abstracted as the constant `0` function
(within the sine's range) and the exponential as the constant `1`. -/
theorem C8_rasterizer_witness :
    ((0 : ℕ) < NUM_LEDS ∧ (∀ _ : ℚ, -1 ≤ (0 : ℚ) ∧ (0 : ℚ) ≤ 1)) ∧
    (((update_led_strip (fun _ => 0) (fun _ => 1) 0 ⟨15, 0, 0, []⟩).leds.getD 0
        ⟨0, 0, 0⟩ =
      WATER_COLOR.nscale8 (cppToUInt8 ((1 : ℚ) * ((0 : ℚ) * 0.2 + 0.8) * 255))) ∧
    (0.6 ≤ (0 : ℚ) * 0.2 + 0.8 ∧ (0 : ℚ) * 0.2 + 0.8 ≤ 1) ∧
    (update_led_strip (fun _ => 0) (fun _ => 1) 0
        ⟨15, 0, 0, []⟩).flow_time_offset = (0 : ℚ) + 0.05 ∧
    (update_led_strip (fun _ => 0) (fun _ => 1) 0 ⟨15, 0, 0, []⟩).leds =
      renderGlow (fun _ => 0) (fun _ => 1)
        (update_led_strip (fun _ => 0) (fun _ => 1) 0 ⟨15, 0, 0, []⟩).water_pos
        ((0 : ℚ) + 0.05)) :=
  ⟨⟨by norm_num [NUM_LEDS], fun _ => by norm_num⟩,
    C8_rasterizer (fun _ => 0) (fun _ => 1) 0 ⟨15, 0, 0, []⟩ 0
      (by norm_num [NUM_LEDS]) (fun _ => by norm_num)⟩

lemma foldl_set_length {α : Type} (g : ℕ → α) (n : ℕ) (buf : List α) :
    ((List.range n).foldl (fun b i => b.set i (g i)) buf).length = buf.length := by
  induction n generalizing buf with
  | zero => rfl
  | succ k ih =>
    rw [List.range_succ, List.foldl_append]
    simp only [List.foldl_cons, List.foldl_nil, List.length_set]
    exact ih buf

lemma foldl_set_getD_ge {α : Type} (g : ℕ → α) (d : α) (n : ℕ) (buf : List α)
    (j : ℕ) (hj : n ≤ j) :
    ((List.range n).foldl (fun b i => b.set i (g i)) buf).getD j d =
      buf.getD j d := by
  induction n generalizing buf with
  | zero => rfl
  | succ k ih =>
    rw [List.range_succ, List.foldl_append]
    simp only [List.foldl_cons, List.foldl_nil]
    rw [List.getD_eq_getElem?_getD, List.getElem?_set_ne (by omega),
      ← List.getD_eq_getElem?_getD]
    exact ih buf (by omega)

lemma foldl_set_getD_lt {α : Type} (g : ℕ → α) (d : α) (j : ℕ) :
    ∀ (n : ℕ) (buf : List α), j < n → j < buf.length →
      ((List.range n).foldl (fun b i => b.set i (g i)) buf).getD j d = g j := by
  intro n
  induction n with
  | zero => exact fun buf h _ => absurd h (Nat.not_lt_zero j)
  | succ k ih =>
    intro buf hj hlen
    rw [List.range_succ, List.foldl_append]
    simp only [List.foldl_cons, List.foldl_nil]
    rcases Nat.lt_or_ge j k with h | h
    · rw [List.getD_eq_getElem?_getD, List.getElem?_set_ne (by omega),
        ← List.getD_eq_getElem?_getD]
      exact ih buf h hlen
    · have hjk : j = k := by omega
      subst hjk
      rw [List.getD_eq_getElem?_getD,
        List.getElem?_set_self (by rw [foldl_set_length]; exact hlen)]
      rfl

/-- C9: the text visualizer maps each pixel's peak channel brightness `b`
through the fixed threshold table `b > 180 → '~'`, else `b > 50 → '='`,
else `b > 10 → '_'`, else `' '`; in particular `200 → '~'`, `100 → '='`,
`20 → '_'`, `5 → ' '`. -/
theorem C9_glyph_mapping (leds : List CRGB) (buffer : List Char)
    (buffer_size : ℤ) (i : ℕ) (hi : i < NUM_LEDS)
    (hbs : (NUM_LEDS : ℤ) + 1 ≤ buffer_size)
    (hlen : NUM_LEDS + 1 ≤ buffer.length) :
    ((create_ascii_visualization leds buffer buffer_size).getD i ' ' =
      asciiGlyph (ledBrightness (leds.getD i ⟨0, 0, 0⟩))) ∧
    (∀ b : ℕ,
      (b > 180 → asciiGlyph b = '~') ∧
      (b ≤ 180 → b > 50 → asciiGlyph b = '=') ∧
      (b ≤ 50 → b > 10 → asciiGlyph b = '_') ∧
      (b ≤ 10 → asciiGlyph b = ' ')) ∧
    asciiGlyph 200 = '~' ∧ asciiGlyph 100 = '=' ∧ asciiGlyph 20 = '_' ∧
    asciiGlyph 5 = ' ' := by
  refine ⟨?_, ?_, rfl, rfl, rfl, rfl⟩
  · unfold create_ascii_visualization
    rw [if_neg (not_lt.mpr hbs)]
    rw [List.getD_eq_getElem?_getD, List.getElem?_set_ne (by omega),
      ← List.getD_eq_getElem?_getD]
    exact foldl_set_getD_lt
      (fun i => asciiGlyph (ledBrightness (leds.getD i ⟨0, 0, 0⟩))) ' ' i
      NUM_LEDS buffer hi (by omega)
  · intro b
    unfold asciiGlyph
    refine ⟨fun h => by rw [if_pos h], fun h1 h2 => ?_, fun h1 h2 => ?_,
      fun h => ?_⟩
    · rw [if_neg (by omega), if_pos h2]
    · rw [if_neg (by omega), if_neg (by omega), if_pos h2]
    · rw [if_neg (by omega), if_neg (by omega), if_neg (by omega)]

/-- C9 witness: pixel `0` of an empty pixel list rendered into a 31-slot
buffer (peak brightness `0`, hence the blank glyph). -/
theorem C9_glyph_mapping_witness :
    ((0 : ℕ) < NUM_LEDS ∧ (NUM_LEDS : ℤ) + 1 ≤ 31 ∧
      NUM_LEDS + 1 ≤ (List.replicate 31 'x').length) ∧
    (((create_ascii_visualization [] (List.replicate 31 'x') 31).getD 0 ' ' =
      asciiGlyph (ledBrightness (([] : List CRGB).getD 0 ⟨0, 0, 0⟩))) ∧
    (∀ b : ℕ,
      (b > 180 → asciiGlyph b = '~') ∧
      (b ≤ 180 → b > 50 → asciiGlyph b = '=') ∧
      (b ≤ 50 → b > 10 → asciiGlyph b = '_') ∧
      (b ≤ 10 → asciiGlyph b = ' ')) ∧
    asciiGlyph 200 = '~' ∧ asciiGlyph 100 = '=' ∧ asciiGlyph 20 = '_' ∧
    asciiGlyph 5 = ' ') :=
  ⟨⟨by norm_num [NUM_LEDS], by norm_num [NUM_LEDS], by simp [NUM_LEDS]⟩,
    C9_glyph_mapping [] (List.replicate 31 'x') 31 0 (by norm_num [NUM_LEDS])
      (by norm_num [NUM_LEDS]) (by simp [NUM_LEDS])⟩

/-- C10: if `buffer_size < NUM_LEDS + 1` the function returns immediately
and the buffer is unchanged; otherwise it writes exactly one glyph at each
index `0..NUM_LEDS-1` and a null terminator at index `NUM_LEDS`, touches no
index beyond `NUM_LEDS`, and preserves the buffer's length. -/
theorem C10_buffer_guard (leds : List CRGB) (buffer : List Char)
    (buffer_size : ℤ) :
    (buffer_size < (NUM_LEDS : ℤ) + 1 →
      create_ascii_visualization leds buffer buffer_size = buffer) ∧
    ((NUM_LEDS : ℤ) + 1 ≤ buffer_size → NUM_LEDS + 1 ≤ buffer.length →
      (∀ i : ℕ, i < NUM_LEDS →
        (create_ascii_visualization leds buffer buffer_size).getD i ' ' =
          asciiGlyph (ledBrightness (leds.getD i ⟨0, 0, 0⟩))) ∧
      (create_ascii_visualization leds buffer buffer_size).getD NUM_LEDS ' ' =
        Char.ofNat 0 ∧
      (∀ j : ℕ, NUM_LEDS < j →
        (create_ascii_visualization leds buffer buffer_size).getD j ' ' =
          buffer.getD j ' ') ∧
      (create_ascii_visualization leds buffer buffer_size).length =
        buffer.length) := by
  constructor
  · intro h
    unfold create_ascii_visualization
    rw [if_pos h]
  · intro hbs hlen
    have hrw : create_ascii_visualization leds buffer buffer_size =
        ((List.range NUM_LEDS).foldl
          (fun buf i =>
            buf.set i (asciiGlyph (ledBrightness (leds.getD i ⟨0, 0, 0⟩))))
          buffer).set NUM_LEDS (Char.ofNat 0) := by
      unfold create_ascii_visualization
      rw [if_neg (not_lt.mpr hbs)]
    refine ⟨?_, ?_, ?_, ?_⟩
    · intro i hi
      rw [hrw, List.getD_eq_getElem?_getD, List.getElem?_set_ne (by omega),
        ← List.getD_eq_getElem?_getD]
      exact foldl_set_getD_lt
        (fun i => asciiGlyph (ledBrightness (leds.getD i ⟨0, 0, 0⟩))) ' ' i
        NUM_LEDS buffer hi (by omega)
    · rw [hrw, List.getD_eq_getElem?_getD,
        List.getElem?_set_self (by rw [foldl_set_length]; omega)]
      rfl
    · intro j hj
      rw [hrw, List.getD_eq_getElem?_getD, List.getElem?_set_ne (by omega),
        ← List.getD_eq_getElem?_getD]
      exact foldl_set_getD_ge
        (fun i => asciiGlyph (ledBrightness (leds.getD i ⟨0, 0, 0⟩))) ' '
        NUM_LEDS buffer j (by omega)
    · rw [hrw, List.length_set, foldl_set_length]

/-- C10 witness: a too-small size (`0`) leaves a 31-slot buffer untouched,
and size `31` on that buffer produces the glyph row, the terminator at
index `30`, no write past index `30`, and an unchanged length. -/
theorem C10_buffer_guard_witness :
    ((0 : ℤ) < (NUM_LEDS : ℤ) + 1 ∧
      create_ascii_visualization [] (List.replicate 31 'x') 0 =
        List.replicate 31 'x') ∧
    ((NUM_LEDS : ℤ) + 1 ≤ 31 ∧ NUM_LEDS + 1 ≤ (List.replicate 31 'x').length ∧
      ((∀ i : ℕ, i < NUM_LEDS →
        (create_ascii_visualization [] (List.replicate 31 'x') 31).getD i ' ' =
          asciiGlyph (ledBrightness (([] : List CRGB).getD i ⟨0, 0, 0⟩))) ∧
      (create_ascii_visualization [] (List.replicate 31 'x') 31).getD NUM_LEDS
          ' ' = Char.ofNat 0 ∧
      (∀ j : ℕ, NUM_LEDS < j →
        (create_ascii_visualization [] (List.replicate 31 'x') 31).getD j ' ' =
          (List.replicate 31 'x').getD j ' ') ∧
      (create_ascii_visualization [] (List.replicate 31 'x') 31).length =
        (List.replicate 31 'x').length)) :=
  ⟨⟨by norm_num [NUM_LEDS],
      (C10_buffer_guard [] (List.replicate 31 'x') 0).1 (by norm_num [NUM_LEDS])⟩,
    ⟨by norm_num [NUM_LEDS], by simp [NUM_LEDS],
      (C10_buffer_guard [] (List.replicate 31 'x') 31).2 (by norm_num [NUM_LEDS])
        (by simp [NUM_LEDS])⟩⟩

end MPU6050Light
